import Mathlib

/-!
# Verification of the secure P2P file-share core (WebRTC + Firestore signaling)

Shallow embedding of the session-establishment and chunked-transfer logic of
the single-page application (source files `src/unnamed/part_000` and
`src/src/App.jsx`, which contain the same component).  External primitives
(Web Crypto ECDH / AES-GCM / SHA-256, WebRTC, Firestore) are modelled at
their interface, with the model choices documented at each definition; the
control flow, state mutation order and branch conditions are translated
line by line from the source.
-/

namespace SecureP2P

/-! ## Key agreement (ECDH P-256, part_000 lines 63-73, 90-100, 131-137)

The curve group is not part of the repository; it is modelled from the
spec as the multiplicative group generated by `gCurve` modulo `pCurve`,
with scalar multiplication realised as modular exponentiation.  A private
key is a scalar, a public key is the corresponding group element. -/

/-- An ECDH keypair as produced by `crypto.subtle.generateKey`: the private
scalar together with its public group element. -/
structure KeyPair where
  priv : Nat
  pub : Nat
deriving DecidableEq

/-- The P-256 field modulus (the group itself is modelled, not the real
elliptic curve). -/
def pCurve : Nat := 2 ^ 256 - 2 ^ 224 + 2 ^ 192 + 2 ^ 96 - 1

/-- Model generator of the curve group. -/
def gCurve : Nat := 3

/-- Modelled from the spec: ECDH public-key computation, scalar times base
point, here exponentiation of the generator. -/
def ecdhPub (g p priv : Nat) : Nat := g ^ priv % p

/-- Modelled from the spec: `crypto.subtle.deriveBits({name: ECDH, public},
privateKey, 256)` — the shared secret is the peer public element raised to
the local private scalar. -/
def ecdhDeriveBits (p priv pub : Nat) : Nat := pub ^ priv % p

/-- part_000 lines 133-137: `crypto.subtle.generateKey({name: ECDH,
namedCurve: P-256}, true, [deriveBits])`, key material only. -/
def generateKeyPair (g p priv : Nat) : KeyPair := ⟨priv, ecdhPub g p priv⟩

/-- part_000 line 77: `crypto.subtle.exportKey(jwk, publicKey)`.  The jwk
encoding is opaque to the core and modelled as the group element itself. -/
def exportPublicKey (kp : KeyPair) : Nat := kp.pub

/-- part_000 lines 63-65: `crypto.subtle.importKey(jwk, ...)`, inverse of
the export. -/
def importPublicKey (blob : Nat) : Nat := blob

/-- An AES-GCM symmetric key as produced by `crypto.subtle.importKey(raw,
derivedBits, AES-GCM)`: a wrapper around the raw 256 key bits. -/
structure AesKey where
  bits : Nat
deriving DecidableEq

/-- part_000 lines 71-73 and 98-100: import of the raw derived bits as an
AES-256-GCM key (no further KDF). -/
def importAesKey (bits : Nat) : AesKey := ⟨bits⟩

/-- part_000 lines 63-73 (offer handler) and lines 90-100 (answer handler):
both handlers derive the symmetric key by importing the peer public key,
calling deriveBits with the local private key, and importing the result as
an AES-GCM key.  The two code paths are textually identical; this is the
shared embedding used in both branches of `handleSig` below. -/
def derivedSymmetricKey (kp : KeyPair) (peerPubBlob : Nat) : AesKey :=
  importAesKey (ecdhDeriveBits pCurve kp.priv (importPublicKey peerPubBlob))

/-- Commutativity of the modelled ECDH exchange: deriving from one private
scalar and the other side's public element does not depend on which side
derives. -/
theorem ecdhDeriveBits_comm (g p a b : Nat) :
    ecdhDeriveBits p a (ecdhPub g p b) = ecdhDeriveBits p b (ecdhPub g p a) := by
  unfold ecdhDeriveBits ecdhPub
  rw [← Nat.pow_mod, ← Nat.pow_mod, ← pow_mul, ← pow_mul, Nat.mul_comm]

/-- C1: for every two independently generated P-256 keypairs, the symmetric
key derived, as the offer handler does on one side, from the local private
key and the peer's exported public key is bit-identical to the one the
answer handler derives on the other side from its private key and the first
side's exported public key. -/
theorem c1_shared_key_agreement (a b : Nat) :
    derivedSymmetricKey (generateKeyPair gCurve pCurve b)
        (exportPublicKey (generateKeyPair gCurve pCurve a))
      = derivedSymmetricKey (generateKeyPair gCurve pCurve a)
        (exportPublicKey (generateKeyPair gCurve pCurve b)) := by
  unfold derivedSymmetricKey generateKeyPair exportPublicKey importPublicKey importAesKey
  simp only
  congr 1
  exact ecdhDeriveBits_comm gCurve pCurve b a

/-! ## AES-GCM (part_000 lines 199-203 and 321-325)

AES-GCM itself is a browser primitive; it is modelled from the spec as an
authenticated stream cipher: a keystream derived from key and iv is added
to the plaintext byte-wise modulo 256, and a 16-byte tag computed from the
key, the iv and the ciphertext body is appended.  Decryption recomputes and
checks the tag and inverts the keystream.  Byte lists represent the
ArrayBuffers of the source. -/

/-- Numeric value of a byte list, used to mix the iv and the ciphertext
into the model keystream and tag. -/
def bytesVal (l : List Nat) : Nat := l.foldl (fun a b => a * 256 + b) 0

/-- Model AES-GCM keystream byte at position `i` under `key` and `iv`. -/
def ksByte (key : AesKey) (iv : List Nat) (i : Nat) : Nat :=
  (key.bits + 2 * bytesVal iv + 131 * i) % 256

/-- Byte-wise addition of the keystream from position `i` on. -/
def ctrEnc (key : AesKey) (iv : List Nat) : Nat → List Nat → List Nat
  | _, [] => []
  | i, b :: bs => (b + ksByte key iv i) % 256 :: ctrEnc key iv (i + 1) bs

/-- Byte-wise subtraction of the keystream from position `i` on. -/
def ctrDec (key : AesKey) (iv : List Nat) : Nat → List Nat → List Nat
  | _, [] => []
  | i, b :: bs => (b + (256 - ksByte key iv i)) % 256 :: ctrDec key iv (i + 1) bs

/-- Model GCM authentication tag: 16 bytes determined by the key, the iv
and the ciphertext body. -/
def gcmTag (key : AesKey) (iv ct : List Nat) : List Nat :=
  (List.range 16).map (fun j => (key.bits + 3 * bytesVal iv + bytesVal ct + j) % 256)

/-- `crypto.subtle.encrypt({name: AES-GCM, iv}, key, chunk)` (part_000
lines 321-325): ciphertext body followed by the authentication tag. -/
def aesGcmEncrypt (key : AesKey) (iv pt : List Nat) : List Nat :=
  ctrEnc key iv 0 pt ++ gcmTag key iv (ctrEnc key iv 0 pt)

/-- `crypto.subtle.decrypt({name: AES-GCM, iv}, key, data)` (part_000
lines 199-203): checks the tag and inverts the cipher; `none` models the
rejection (thrown OperationError) on a bad tag or truncated input. -/
def aesGcmDecrypt (key : AesKey) (iv ct : List Nat) : Option (List Nat) :=
  if ct.length < 16 then none
  else
    let body := ct.take (ct.length - 16)
    let tag := ct.drop (ct.length - 16)
    if gcmTag key iv body = tag then some (ctrDec key iv 0 body) else none

/-- part_000 lines 326-329: the sent frame is the 12-byte iv with the
ciphertext-plus-tag appended at offset 12. -/
def sendChunkFrame (key : AesKey) (iv chunk : List Nat) : List Nat :=
  iv ++ aesGcmEncrypt key iv chunk

theorem ctrEnc_length (key : AesKey) (iv : List Nat) :
    ∀ i bs, (ctrEnc key iv i bs).length = bs.length := by
  intro i bs
  induction bs generalizing i with
  | nil => rfl
  | cons b bs ih => simp [ctrEnc, ih]

theorem ksByte_lt (key : AesKey) (iv : List Nat) (i : Nat) : ksByte key iv i < 256 :=
  Nat.mod_lt _ (by norm_num)

theorem ctrDec_ctrEnc (key : AesKey) (iv : List Nat) :
    ∀ i bs, (∀ x ∈ bs, x < 256) → ctrDec key iv i (ctrEnc key iv i bs) = bs := by
  intro i bs
  induction bs generalizing i with
  | nil => intro _; rfl
  | cons b bs ih =>
    intro hb
    have hblt : b < 256 := hb b (List.mem_cons_self b bs)
    have hk : ksByte key iv i < 256 := ksByte_lt key iv i
    simp only [ctrEnc, ctrDec, List.cons.injEq]
    refine ⟨by omega, ih (i + 1) (fun x hx => hb x (List.mem_cons_of_mem b hx))⟩

theorem gcmTag_length (key : AesKey) (iv ct : List Nat) : (gcmTag key iv ct).length = 16 := by
  simp [gcmTag]

/-- Decrypting an encryption under the same key and iv recovers the
plaintext. -/
theorem aesGcmDecrypt_encrypt (key : AesKey) (iv pt : List Nat)
    (hpt : ∀ x ∈ pt, x < 256) :
    aesGcmDecrypt key iv (aesGcmEncrypt key iv pt) = some pt := by
  unfold aesGcmDecrypt aesGcmEncrypt
  have hel : (ctrEnc key iv 0 pt).length = pt.length := ctrEnc_length key iv 0 pt
  have hlen : (ctrEnc key iv 0 pt ++ gcmTag key iv (ctrEnc key iv 0 pt)).length
      = pt.length + 16 := by
    rw [List.length_append, hel, gcmTag_length]
  rw [hlen]
  have hnlt : ¬ pt.length + 16 < 16 := by omega
  rw [if_neg hnlt]
  have hsub : pt.length + 16 - 16 = (ctrEnc key iv 0 pt).length := by omega
  rw [hsub, List.take_left, List.drop_left, if_pos rfl, ctrDec_ctrEnc key iv 0 pt hpt]

/-- C2: the sender frames a chunk as the 12-byte iv followed by the AES-GCM
ciphertext-plus-tag, and the receiver handler, splitting an inbound frame
at byte offset 12 and decrypting under the same key, recovers exactly the
plaintext chunk. -/
theorem c2_frame_roundtrip (key : AesKey) (iv pt : List Nat)
    (hiv : iv.length = 12) (hpt : ∀ x ∈ pt, x < 256) :
    sendChunkFrame key iv pt = iv ++ aesGcmEncrypt key iv pt
    ∧ (sendChunkFrame key iv pt).take 12 = iv
    ∧ aesGcmDecrypt key ((sendChunkFrame key iv pt).take 12)
        ((sendChunkFrame key iv pt).drop 12) = some pt := by
  refine ⟨rfl, List.take_left' hiv, ?_⟩
  rw [sendChunkFrame, List.take_left' hiv, List.drop_left' hiv]
  exact aesGcmDecrypt_encrypt key iv pt hpt

/-- Witness for C2 at a concrete key, iv and plaintext. -/
theorem c2_frame_roundtrip_witness :
    (List.replicate 12 0).length = 12
    ∧ (∀ x ∈ [1, 2, 3], x < 256)
    ∧ (sendChunkFrame ⟨7⟩ (List.replicate 12 0) [1, 2, 3]
         = List.replicate 12 0 ++ aesGcmEncrypt ⟨7⟩ (List.replicate 12 0) [1, 2, 3]
       ∧ (sendChunkFrame ⟨7⟩ (List.replicate 12 0) [1, 2, 3]).take 12 = List.replicate 12 0
       ∧ aesGcmDecrypt ⟨7⟩ ((sendChunkFrame ⟨7⟩ (List.replicate 12 0) [1, 2, 3]).take 12)
           ((sendChunkFrame ⟨7⟩ (List.replicate 12 0) [1, 2, 3]).drop 12) = some [1, 2, 3]) :=
  ⟨by decide, by decide,
   c2_frame_roundtrip ⟨7⟩ (List.replicate 12 0) [1, 2, 3] (by decide) (by decide)⟩

/-! ## Integrity hashing (part_000 lines 342-347)

`hashFile` calls the external `crypto.subtle.digest(SHA-256)` and then hex
encodes the digest bytes.  The digest primitive is a parameter `digestFn`
throughout; the hex encoding is translated from the source. -/

/-- One lowercase hex digit. -/
def hexChar (n : Nat) : Char := if n < 10 then Char.ofNat (48 + n) else Char.ofNat (87 + n)

/-- part_000 line 346: `b.toString(16).padStart(2, 0)` for a byte. -/
def byteToHex (b : Nat) : List Char := [hexChar (b / 16), hexChar (b % 16)]

/-- part_000 lines 342-347: digest the bytes and hex encode the result;
the SHA-256 primitive itself is the parameter `digestFn`. -/
def hashFile (digestFn : List Nat → List Nat) (data : List Nat) : String :=
  String.mk ((digestFn data).map byteToHex).flatten

/-! ## Data-channel receiver (part_000 lines 178-226)

The mutable refs and state setters touched by the `onmessage` handler,
gathered into one record.  `connectionStatus` is included to express that
the handler never changes it. -/

/-- The parsed fileMetadata control message (part_000 lines 308-314):
fields exactly type, fileName, fileSize, fileType, fileHash. -/
structure FileMetadata where
  fileName : String
  fileSize : Nat
  fileType : String
  fileHash : String
deriving DecidableEq

/-- part_000 line 215: the artifact exposed for retrieval,
`setReceivedFile({name, blob})`. -/
structure ReceivedFile where
  name : String
  blob : List Nat
deriving DecidableEq

/-- The receiver-side component state touched by the data-channel message
handler (part_000 lines 25-28 and the setters used in lines 178-226). -/
structure RecvState where
  receiveBuffer : List (List Nat)
  receivedSize : Nat
  receivedFileMetadata : Option FileMetadata
  transferProgress : ℚ
  receivedFile : Option ReceivedFile
  symmetricKey : Option AesKey
  connectionStatus : String
  message : String
deriving DecidableEq

/-- part_000 line 223: message shown when the binary branch throws. -/
def decryptErrorMsg : String := "Error decrypting file. Transfer failed."

/-- part_000 lines 206-209: `if (meta?.fileSize) setTransferProgress(...)`;
a present metadata with nonzero fileSize (JS truthiness) updates the
progress percentage. -/
def progressUpdate (st : RecvState) : RecvState :=
  match st.receivedFileMetadata with
  | some meta =>
    if meta.fileSize ≠ 0 then
      { st with transferProgress := (st.receivedSize : ℚ) / (meta.fileSize : ℚ) * 100 }
    else st
  | none => st

/-- part_000 lines 210-220: when the accumulated size has reached the
announced fileSize, assemble the buffer, digest it, compare with the
announced fileHash, and expose or discard the artifact. -/
def finishCheck (digestFn : List Nat → List Nat) (st : RecvState) : RecvState :=
  match st.receivedFileMetadata with
  | none => st
  | some meta =>
    if meta.fileSize ≤ st.receivedSize then
      if hashFile digestFn st.receiveBuffer.flatten = meta.fileHash then
        { st with message := "File received and verified successfully!",
                  receivedFile := some ⟨meta.fileName, st.receiveBuffer.flatten⟩ }
      else
        { st with message := "File transfer complete, but verification failed.",
                  receivedFile := none }
    else st

/-- part_000 lines 193-225: the binary branch of the onmessage handler.
Splits the frame at offset 12, decrypts, appends the plaintext and runs the
progress update and the completion check; a missing key or a failed
decryption is the caught exception path, which only sets the message. -/
def handleBinary (digestFn : List Nat → List Nat) (st : RecvState) (frame : List Nat) :
    RecvState :=
  match st.symmetricKey with
  | none => { st with message := decryptErrorMsg }
  | some key =>
    match aesGcmDecrypt key (frame.take 12) (frame.drop 12) with
    | none => { st with message := decryptErrorMsg }
    | some chunk =>
      finishCheck digestFn (progressUpdate
        { st with receiveBuffer := st.receiveBuffer ++ [chunk],
                  receivedSize := st.receivedSize + chunk.length })

/-- An inbound data-channel message: a textual control message (already
JSON-parsed; `none` stands for non-JSON text or JSON without the
fileMetadata type, which the source silently ignores) or a binary frame. -/
inductive ChannelMsg where
  | text (parsed : Option FileMetadata)
  | binary (frame : List Nat)

/-- part_000 lines 180-192: the textual branch resets the accumulation
state on a fileMetadata message, and part_000 lines 193-225 the binary
branch. -/
def handleMessage (digestFn : List Nat → List Nat) (st : RecvState) : ChannelMsg → RecvState
  | .text none => st
  | .text (some meta) =>
    { st with receivedFileMetadata := some meta, receiveBuffer := [],
              receivedSize := 0, transferProgress := 0,
              message := "Receiving file." }
  | .binary frame => handleBinary digestFn st frame

/-- The onmessage handler applied to each inbound message in arrival
order. -/
def runReceiver (digestFn : List Nat → List Nat) (st : RecvState) (msgs : List ChannelMsg) :
    RecvState :=
  msgs.foldl (handleMessage digestFn) st

/-! ## Sender (part_000 lines 284-340) -/

/-- part_000 line 316: `const chunkSize = 16 * 1024`. -/
def chunkSize : Nat := 16 * 1024

/-- part_000 lines 308-314: the fileMetadata control message sent before
any chunk. -/
def sendFileMetadata (digestFn : List Nat → List Nat) (name mime : String)
    (data : List Nat) : FileMetadata :=
  ⟨name, data.length, mime, hashFile digestFn data⟩

/-- part_000 lines 317-332: the chunking loop
`while (offset < fileData.byteLength)`, slicing 16 KiB at a time,
encrypting under a fresh iv (the iv source is the oracle `ivf`, indexed by
the offset) and framing iv-first.  `fuel` is an upper bound on the number
of iterations; since the offset advances by `chunkSize ≥ 1` each pass,
`data.length` passes always suffice (`sendFrames` below). -/
def sendFramesLoop (key : AesKey) (ivf : Nat → List Nat) (data : List Nat) :
    Nat → Nat → List (List Nat)
  | _, 0 => []
  | offset, fuel + 1 =>
    if offset < data.length then
      sendChunkFrame key (ivf offset) ((data.drop offset).take chunkSize)
        :: sendFramesLoop key ivf data (offset + chunkSize) fuel
    else []

/-- The full list of binary frames the sender emits for `data`. -/
def sendFrames (key : AesKey) (ivf : Nat → List Nat) (data : List Nat) : List (List Nat) :=
  sendFramesLoop key ivf data 0 data.length

/-- part_000 line 331: the progress values reported after each chunk,
`(offset / fileData.byteLength) * 100` with the offset already advanced by
`chunkSize`. -/
def sendProgressLoop (n : Nat) : Nat → Nat → List ℚ
  | _, 0 => []
  | offset, fuel + 1 =>
    if offset < n then
      (((offset + chunkSize : Nat) : ℚ) / (n : ℚ) * 100)
        :: sendProgressLoop n (offset + chunkSize) fuel
    else []

/-- The reported sender-side progress sequence for a file of `n` bytes. -/
def sendProgress (n : Nat) : List ℚ := sendProgressLoop n 0 n

/-! ### Field-preservation lemmas for the receiver handler -/

theorem progressUpdate_fields (st : RecvState) :
    (progressUpdate st).receiveBuffer = st.receiveBuffer
    ∧ (progressUpdate st).receivedSize = st.receivedSize
    ∧ (progressUpdate st).receivedFileMetadata = st.receivedFileMetadata
    ∧ (progressUpdate st).symmetricKey = st.symmetricKey
    ∧ (progressUpdate st).connectionStatus = st.connectionStatus
    ∧ (progressUpdate st).receivedFile = st.receivedFile := by
  rcases h : st.receivedFileMetadata with _ | meta
  · simp [progressUpdate, h]
  · by_cases h2 : meta.fileSize ≠ 0 <;> simp [progressUpdate, h, h2]

theorem finishCheck_fields (digestFn : List Nat → List Nat) (st : RecvState) :
    (finishCheck digestFn st).receiveBuffer = st.receiveBuffer
    ∧ (finishCheck digestFn st).receivedSize = st.receivedSize
    ∧ (finishCheck digestFn st).receivedFileMetadata = st.receivedFileMetadata
    ∧ (finishCheck digestFn st).symmetricKey = st.symmetricKey
    ∧ (finishCheck digestFn st).connectionStatus = st.connectionStatus := by
  rcases h : st.receivedFileMetadata with _ | meta
  · simp [finishCheck, h]
  · by_cases h1 : meta.fileSize ≤ st.receivedSize <;>
      by_cases h2 : hashFile digestFn st.receiveBuffer.flatten = meta.fileHash <;>
        simp [finishCheck, h, h1, h2]

/-- The successful path of the binary handler factored as an equation. -/
theorem handleBinary_eq (digestFn : List Nat → List Nat) (st : RecvState) (key : AesKey)
    (frame chunk : List Nat)
    (hkey : st.symmetricKey = some key)
    (hdec : aesGcmDecrypt key (frame.take 12) (frame.drop 12) = some chunk) :
    handleBinary digestFn st frame
      = finishCheck digestFn (progressUpdate
          { st with receiveBuffer := st.receiveBuffer ++ [chunk],
                    receivedSize := st.receivedSize + chunk.length }) := by
  unfold handleBinary
  rw [hkey]
  simp only [hdec]

/-- On a successful decryption the binary handler appends the plaintext
chunk, adds its length, and leaves key, metadata and connection status
untouched. -/
theorem handleBinary_success (digestFn : List Nat → List Nat) (st : RecvState) (key : AesKey)
    (frame chunk : List Nat)
    (hkey : st.symmetricKey = some key)
    (hdec : aesGcmDecrypt key (frame.take 12) (frame.drop 12) = some chunk) :
    (handleBinary digestFn st frame).receiveBuffer = st.receiveBuffer ++ [chunk]
    ∧ (handleBinary digestFn st frame).receivedSize = st.receivedSize + chunk.length
    ∧ (handleBinary digestFn st frame).symmetricKey = some key
    ∧ (handleBinary digestFn st frame).receivedFileMetadata = st.receivedFileMetadata
    ∧ (handleBinary digestFn st frame).connectionStatus = st.connectionStatus := by
  rw [handleBinary_eq digestFn st key frame chunk hkey hdec]
  obtain ⟨f1, f2, f3, f4, f5⟩ := finishCheck_fields digestFn (progressUpdate
    { st with receiveBuffer := st.receiveBuffer ++ [chunk],
              receivedSize := st.receivedSize + chunk.length })
  obtain ⟨p1, p2, p3, p4, p5, _⟩ := progressUpdate_fields
    { st with receiveBuffer := st.receiveBuffer ++ [chunk],
              receivedSize := st.receivedSize + chunk.length }
  rw [f1, p1, f2, p2, f3, p3, f4, p4, f5, p5]
  exact ⟨rfl, rfl, hkey, rfl, rfl⟩

/-- Processing the frames the chunking loop produces from position `offset`
appends exactly the remaining bytes of `data` to the receive buffer. -/
theorem runReceiver_sendFrames (digestFn : List Nat → List Nat) (key : AesKey)
    (ivf : Nat → List Nat) (data : List Nat)
    (hiv : ∀ i, (ivf i).length = 12) (hdata : ∀ x ∈ data, x < 256) :
    ∀ fuel offset st, data.length ≤ offset + fuel → st.symmetricKey = some key →
      (runReceiver digestFn st
          ((sendFramesLoop key ivf data offset fuel).map ChannelMsg.binary)).receiveBuffer.flatten
        = st.receiveBuffer.flatten ++ data.drop offset := by
  intro fuel
  induction fuel with
  | zero =>
    intro offset st hle _
    have hnil : data.drop offset = [] := List.drop_eq_nil_of_le (by omega)
    simp [sendFramesLoop, runReceiver, hnil]
  | succ fuel ih =>
    intro offset st hle hkey
    by_cases hoff : offset < data.length
    · have hc : 1 ≤ chunkSize := by norm_num [chunkSize]
      set chunk : List Nat := (data.drop offset).take chunkSize with hchunk
      have hchunklt : ∀ x ∈ chunk, x < 256 := fun x hx =>
        hdata x (List.drop_subset offset data (List.take_subset chunkSize (data.drop offset) hx))
      have hdec : aesGcmDecrypt key ((sendChunkFrame key (ivf offset) chunk).take 12)
          ((sendChunkFrame key (ivf offset) chunk).drop 12) = some chunk := by
        rw [sendChunkFrame, List.take_left' (hiv offset), List.drop_left' (hiv offset)]
        exact aesGcmDecrypt_encrypt key (ivf offset) chunk hchunklt
      obtain ⟨b1, _, b3, _, _⟩ :=
        handleBinary_success digestFn st key (sendChunkFrame key (ivf offset) chunk) chunk hkey hdec
      have hrec := ih (offset + chunkSize) (handleBinary digestFn st (sendChunkFrame key (ivf offset) chunk))
        (by omega) b3
      simp only [sendFramesLoop, if_pos hoff, List.map_cons, runReceiver, List.foldl_cons] at hrec ⊢
      rw [show handleMessage digestFn st
            (ChannelMsg.binary (sendChunkFrame key (ivf offset) chunk))
          = handleBinary digestFn st (sendChunkFrame key (ivf offset) chunk) from rfl]
      rw [hrec, b1, List.flatten_append]
      have hdd : (data.drop offset).drop chunkSize = data.drop (offset + chunkSize) := by
        rw [List.drop_drop]
      rw [List.append_assoc]
      congr 1
      simp only [List.flatten, List.append_nil]
      rw [← hdd, hchunk, List.take_append_drop]
    · have hnil : data.drop offset = [] := List.drop_eq_nil_of_le (by omega)
      simp [sendFramesLoop, if_neg hoff, runReceiver, hnil]

/-- C3: for every file content, sending it through the chunking loop
(16 KiB chunks, final chunk shorter) and processing the metadata message
followed by the emitted frames on the receiver yields a reassembled buffer
equal to the original bytes — its length is the file size and its digest is
the digest of the original.  This covers all sizes N, in particular
N ∈ {0, 1, 16383, 16384, 16385, 10000000} and the empty file. -/
theorem c3_chunked_transfer_roundtrip (digestFn : List Nat → List Nat) (key : AesKey)
    (ivf : Nat → List Nat) (data : List Nat) (st0 : RecvState) (name mime : String)
    (hiv : ∀ i, (ivf i).length = 12) (hdata : ∀ x ∈ data, x < 256)
    (hkey : st0.symmetricKey = some key) :
    (runReceiver digestFn st0
        (ChannelMsg.text (some (sendFileMetadata digestFn name mime data))
          :: (sendFrames key ivf data).map ChannelMsg.binary)).receiveBuffer.flatten = data
    ∧ (runReceiver digestFn st0
        (ChannelMsg.text (some (sendFileMetadata digestFn name mime data))
          :: (sendFrames key ivf data).map ChannelMsg.binary)).receiveBuffer.flatten.length
        = data.length
    ∧ hashFile digestFn (runReceiver digestFn st0
        (ChannelMsg.text (some (sendFileMetadata digestFn name mime data))
          :: (sendFrames key ivf data).map ChannelMsg.binary)).receiveBuffer.flatten
        = hashFile digestFn data := by
  have hmain : (runReceiver digestFn st0
      (ChannelMsg.text (some (sendFileMetadata digestFn name mime data))
        :: (sendFrames key ivf data).map ChannelMsg.binary)).receiveBuffer.flatten = data := by
    have hstep := runReceiver_sendFrames digestFn key ivf data hiv hdata data.length 0
      (handleMessage digestFn st0
        (ChannelMsg.text (some (sendFileMetadata digestFn name mime data))))
      (by omega) (by simp [handleMessage, hkey])
    unfold runReceiver at hstep
    unfold runReceiver sendFrames
    rw [List.foldl_cons, hstep]
    simp [handleMessage]
  exact ⟨hmain, by rw [hmain], by rw [hmain]⟩

/-- Concrete objects used by the witnesses. -/
def sampleDigest : List Nat → List Nat := fun l => [l.length % 256]

def sampleKey : AesKey := ⟨7⟩

def sampleIvf : Nat → List Nat := fun _ => List.replicate 12 0

def sampleRecvState : RecvState := ⟨[], 0, none, 0, none, some sampleKey, "connected", ""⟩

/-- Witness for C3 at a concrete three-byte file. -/
theorem c3_chunked_transfer_roundtrip_witness :
    (∀ i, (sampleIvf i).length = 12)
    ∧ (∀ x ∈ [1, 2, 3], x < 256)
    ∧ sampleRecvState.symmetricKey = some sampleKey
    ∧ ((runReceiver sampleDigest sampleRecvState
          (ChannelMsg.text (some (sendFileMetadata sampleDigest "f" "bin" [1, 2, 3]))
            :: (sendFrames sampleKey sampleIvf [1, 2, 3]).map ChannelMsg.binary)).receiveBuffer.flatten
          = [1, 2, 3]
       ∧ (runReceiver sampleDigest sampleRecvState
          (ChannelMsg.text (some (sendFileMetadata sampleDigest "f" "bin" [1, 2, 3]))
            :: (sendFrames sampleKey sampleIvf [1, 2, 3]).map ChannelMsg.binary)).receiveBuffer.flatten.length
          = ([1, 2, 3] : List Nat).length
       ∧ hashFile sampleDigest (runReceiver sampleDigest sampleRecvState
          (ChannelMsg.text (some (sendFileMetadata sampleDigest "f" "bin" [1, 2, 3]))
            :: (sendFrames sampleKey sampleIvf [1, 2, 3]).map ChannelMsg.binary)).receiveBuffer.flatten
          = hashFile sampleDigest [1, 2, 3]) :=
  ⟨fun _ => List.length_replicate 12 0, by decide, rfl,
   c3_chunked_transfer_roundtrip sampleDigest sampleKey sampleIvf [1, 2, 3] sampleRecvState
     "f" "bin" (fun _ => List.length_replicate 12 0) (by decide) rfl⟩

/-- C4: when the accumulated byte count reaches the announced file size,
the reassembled artifact is exposed for retrieval if and only if its
computed digest equals the announced fileHash; on mismatch it is discarded
(receivedFile set to none); in both cases the connection status is left
unchanged, so the channel remains usable. -/
theorem c4_verification_gate (digestFn : List Nat → List Nat) (st : RecvState) (key : AesKey)
    (frame chunk : List Nat) (meta : FileMetadata)
    (hkey : st.symmetricKey = some key)
    (hmeta : st.receivedFileMetadata = some meta)
    (hdec : aesGcmDecrypt key (frame.take 12) (frame.drop 12) = some chunk)
    (hsize : meta.fileSize ≤ st.receivedSize + chunk.length) :
    ((handleBinary digestFn st frame).receivedFile
        = some ⟨meta.fileName, (st.receiveBuffer ++ [chunk]).flatten⟩
      ↔ hashFile digestFn ((st.receiveBuffer ++ [chunk]).flatten) = meta.fileHash)
    ∧ (hashFile digestFn ((st.receiveBuffer ++ [chunk]).flatten) ≠ meta.fileHash →
        (handleBinary digestFn st frame).receivedFile = none)
    ∧ (handleBinary digestFn st frame).connectionStatus = st.connectionStatus := by
  rw [handleBinary_eq digestFn st key frame chunk hkey hdec]
  set st1 : RecvState :=
    { st with receiveBuffer := st.receiveBuffer ++ [chunk],
              receivedSize := st.receivedSize + chunk.length } with hst1
  obtain ⟨p1, p2, p3, p4, p5, p6⟩ := progressUpdate_fields st1
  have hmeta1 : (progressUpdate st1).receivedFileMetadata = some meta := by
    rw [p3, hst1]; exact hmeta
  have hsize1 : meta.fileSize ≤ (progressUpdate st1).receivedSize := by
    rw [p2]; exact hsize
  have hbuf1 : (progressUpdate st1).receiveBuffer = st.receiveBuffer ++ [chunk] := by
    rw [p1]
  by_cases hh : hashFile digestFn ((st.receiveBuffer ++ [chunk]).flatten) = meta.fileHash
  · refine ⟨?_, ?_, ?_⟩
    · unfold finishCheck
      simp only [hmeta1, hbuf1, if_pos hsize1, if_pos hh]
      have hh2 : hashFile digestFn (st.receiveBuffer.flatten ++ chunk) = meta.fileHash := by
        simpa using hh
      simp [hh2]
    · intro hne; exact absurd hh hne
    · unfold finishCheck
      simp only [hmeta1, hbuf1, if_pos hsize1, if_pos hh]
      simp [p5, hst1]
  · refine ⟨?_, ?_, ?_⟩
    · unfold finishCheck
      simp only [hmeta1, hbuf1, if_pos hsize1, if_neg hh]
      have hh2 : ¬ hashFile digestFn (st.receiveBuffer.flatten ++ chunk) = meta.fileHash := by
        simpa using hh
      simp [hh2]
    · intro _
      unfold finishCheck
      simp only [hmeta1, hbuf1, if_pos hsize1, if_neg hh]
    · unfold finishCheck
      simp only [hmeta1, hbuf1, if_pos hsize1, if_neg hh]
      simp [p5, hst1]

/-- The metadata announcement used by the C4 witness. -/
def sampleMeta : FileMetadata := ⟨"f.bin", 3, "bin", hashFile sampleDigest [1, 2, 3]⟩

/-- A receiver state that already holds the C4 witness metadata. -/
def sampleRecvStateMeta : RecvState :=
  ⟨[], 0, some sampleMeta, 0, none, some sampleKey, "connected", ""⟩

/-- Witness for C4 at a concrete frame completing a three-byte transfer. -/
theorem c4_verification_gate_witness :
    sampleRecvStateMeta.symmetricKey = some sampleKey
    ∧ sampleRecvStateMeta.receivedFileMetadata = some sampleMeta
    ∧ aesGcmDecrypt sampleKey
        ((sendChunkFrame sampleKey (List.replicate 12 0) [1, 2, 3]).take 12)
        ((sendChunkFrame sampleKey (List.replicate 12 0) [1, 2, 3]).drop 12) = some [1, 2, 3]
    ∧ sampleMeta.fileSize ≤ sampleRecvStateMeta.receivedSize + ([1, 2, 3] : List Nat).length
    ∧ (((handleBinary sampleDigest sampleRecvStateMeta
            (sendChunkFrame sampleKey (List.replicate 12 0) [1, 2, 3])).receivedFile
          = some ⟨sampleMeta.fileName, (sampleRecvStateMeta.receiveBuffer ++ [[1, 2, 3]]).flatten⟩
         ↔ hashFile sampleDigest ((sampleRecvStateMeta.receiveBuffer ++ [[1, 2, 3]]).flatten)
             = sampleMeta.fileHash)
       ∧ (hashFile sampleDigest ((sampleRecvStateMeta.receiveBuffer ++ [[1, 2, 3]]).flatten)
             ≠ sampleMeta.fileHash →
           (handleBinary sampleDigest sampleRecvStateMeta
              (sendChunkFrame sampleKey (List.replicate 12 0) [1, 2, 3])).receivedFile = none)
       ∧ (handleBinary sampleDigest sampleRecvStateMeta
            (sendChunkFrame sampleKey (List.replicate 12 0) [1, 2, 3])).connectionStatus
           = sampleRecvStateMeta.connectionStatus) :=
  ⟨rfl, rfl, by decide, by decide,
   c4_verification_gate sampleDigest sampleRecvStateMeta sampleKey
     (sendChunkFrame sampleKey (List.replicate 12 0) [1, 2, 3]) [1, 2, 3] sampleMeta
     rfl rfl (by decide) (by decide)⟩

/-! ## Signaling listener and session state (part_000 lines 44-116, 131-177,
235-264)

Firestore is the external mailbox; a snapshot batch is a list of document
changes.  A document carries the fields the handlers read; `publicKey` and
the session descriptions are `Option`s, with `none` standing for an absent
or malformed field (whose use throws inside the try block, caught by the
handler).  Effects record the externally visible mailbox operations. -/

/-- A signaling document change as delivered by `onSnapshot`
(part_000 lines 50-53): the Firestore doc id, the change type, and the
document data fields read by the handlers. -/
structure SigDoc where
  id : String
  changeType : String
  type : String
  senderId : String
  targetId : Option String
  publicKey : Option Nat
  sdp : Option String
  candidate : Option String
deriving DecidableEq

/-- A document written back to a peer mailbox (the `addDoc` payloads of
part_000 lines 79-85, 142-147 and 250-256). -/
structure OutDoc where
  type : String
  sdp : Option String
  publicKey : Option Nat
  targetId : Option String
  senderId : String
  candidate : Option String
deriving DecidableEq

/-- Externally visible mailbox operations performed by the listener:
`deleteDoc` on the own mailbox and `addDoc` into a peer mailbox. -/
inductive Effect where
  | deleteDoc (docId : String)
  | sendSignal (recipientId : String) (d : OutDoc)
deriving DecidableEq

/-- The `RTCPeerConnection` surface the handlers touch: remote and local
session descriptions and added ICE candidates. -/
structure PeerConnModel where
  remoteDescription : Option String
  localDescription : Option String
  candidates : List (Option String)
deriving DecidableEq

/-- The session-side component state: the mutable refs and status the
signaling listener and the channel open/close handlers touch
(part_000 lines 14, 23-29). -/
structure AppState where
  connectionStatus : String
  connectedPeerId : String
  message : String
  peerConnection : Option PeerConnModel
  dataChannel : Bool
  cryptoKeyPair : Option KeyPair
  symmetricKey : Option AesKey
  entropy : Nat
deriving DecidableEq

/-- part_000 line 108: the catch branch of the signaling listener. -/
def signalingErrorMsg : String := "Failed to process signaling message. See console."

/-- Opaque model of `createOffer` (part_000 line 247). -/
def createOfferSdp : String := "offer-sdp"

/-- Opaque model of `createAnswer` (part_000 line 75). -/
def createAnswerSdp (offerSdp : String) : String := "answer-to:" ++ offerSdp

/-- part_000 lines 131-163, `setupPeerConnection`: generate a fresh ECDH
keypair (the randomness oracle is the `entropy` counter), create a new
peer connection and a data channel.  The callbacks it installs are the
events modelled separately (`onOpenStep`, `onCloseStep`, the message
handlers). -/
def setupPeerConnectionStep (st : AppState) : AppState :=
  { st with cryptoKeyPair := some (generateKeyPair gCurve pCurve st.entropy),
            entropy := st.entropy + 1,
            peerConnection := some ⟨none, none, []⟩,
            dataChannel := true }

/-- part_000 lines 58-105: the try block of the signaling listener.  Each
branch is translated with its mutation order; a `none` field at a point the
source would throw (importKey on a malformed key, a member access on a null
ref, setRemoteDescription on a missing description) takes the catch path,
which keeps every mutation already performed and sets the error message. -/
def handleSig (u : String) (st : AppState) (c : SigDoc) : AppState × List Effect :=
  if c.type = "offer" then
    let kp := generateKeyPair gCurve pCurve st.entropy
    let st1 := setupPeerConnectionStep st
    match c.publicKey with
    | none => ({ st1 with message := signalingErrorMsg }, [])
    | some pub =>
      let st2 := { st1 with symmetricKey := some (derivedSymmetricKey kp pub) }
      match c.sdp with
      | none => ({ st2 with message := signalingErrorMsg }, [])
      | some offerSdp =>
        ({ st2 with
             peerConnection := some ⟨some offerSdp, some (createAnswerSdp offerSdp), []⟩,
             connectedPeerId := c.senderId,
             message := "Received offer, created answer and derived shared key." },
         [Effect.sendSignal c.senderId
            ⟨"answer", some (createAnswerSdp offerSdp), some (exportPublicKey kp),
             some c.senderId, u, none⟩])
  else if c.type = "answer" ∧ c.targetId = some u then
    match c.publicKey with
    | none => ({ st with message := signalingErrorMsg }, [])
    | some pub =>
      match st.cryptoKeyPair with
      | none => ({ st with message := signalingErrorMsg }, [])
      | some kp =>
        let st1 := { st with symmetricKey := some (derivedSymmetricKey kp pub) }
        match st1.peerConnection, c.sdp with
        | some pc, some ansSdp =>
          ({ st1 with peerConnection := some { pc with remoteDescription := some ansSdp },
                      message := "Received answer, connection established and shared key derived." },
           [])
        | _, _ => ({ st1 with message := signalingErrorMsg }, [])
  else if c.type = "candidate" ∧ c.targetId = some u then
    match st.peerConnection with
    | none => (st, [])
    | some pc =>
      ({ st with peerConnection := some { pc with candidates := pc.candidates ++ [c.candidate] } },
       [])
  else (st, [])

/-- part_000 lines 51-112: one pass of the listener loop over a document
change: non-added changes are skipped, own messages are deleted without
processing, and for the rest the try/catch handler runs and the finally
step deletes the document. -/
def processChange (u : String) (st : AppState) (c : SigDoc) : AppState × List Effect :=
  if c.changeType ≠ "added" then (st, [])
  else if c.senderId = u then (st, [Effect.deleteDoc c.id])
  else
    let r := handleSig u st c
    (r.1, r.2 ++ [Effect.deleteDoc c.id])

/-- The listener loop over a whole snapshot batch, in arrival order. -/
def processBatch (u : String) : AppState → List SigDoc → AppState × List Effect
  | st, [] => (st, [])
  | st, c :: rest =>
    let r := processChange u st c
    let rr := processBatch u r.1 rest
    (rr.1, r.2 ++ rr.2)

/-- The mailbox deletions among a list of effects, in order. -/
def deleteIds (effs : List Effect) : List String :=
  effs.filterMap fun e => match e with
    | .deleteDoc i => some i
    | .sendSignal _ _ => none

/-- part_000 lines 235-264, `connectToPeer` with the already-trimmed peer
id: the empty-id guard, the connecting status, setup, offer creation and
the offer document written to the peer mailbox. -/
def connectToPeer (u : String) (st : AppState) (peerId : String) : AppState × List Effect :=
  if peerId = "" then
    ({ st with message := "Please enter a valid Peer ID first." }, [])
  else
    let st1 := { st with message := "Creating connection offer...",
                         connectionStatus := "connecting" }
    let kp := generateKeyPair gCurve pCurve st1.entropy
    let st2 := setupPeerConnectionStep st1
    ({ st2 with peerConnection := some ⟨none, some createOfferSdp, []⟩,
                connectedPeerId := peerId,
                message := "Offer sent. Waiting for peer to accept..." },
     [Effect.sendSignal peerId
        ⟨"offer", some createOfferSdp, some (exportPublicKey kp), some peerId, u, none⟩])

/-- part_000 lines 167-170: the data channel open handler. -/
def onOpenStep (st : AppState) : AppState :=
  { st with connectionStatus := "connected",
            message := "Connection established. You can now send or receive files." }

/-- part_000 lines 171-177: the data channel close handler — status to
disconnected and the peer connection, data channel and symmetric key
cleared in the same step. -/
def onCloseStep (st : AppState) : AppState :=
  { st with connectionStatus := "disconnected",
            message := "Peer disconnected. Click Connect to re-establish.",
            peerConnection := none, dataChannel := false, symmetricKey := none }

/-! ## The generateKey call (part_000 lines 133-137) for C7 -/

/-- The algorithm argument of `crypto.subtle.generateKey`. -/
structure EcKeyGenParams where
  name : String
  namedCurve : String
deriving DecidableEq

/-- The full argument list of a `generateKey` call. -/
structure GenerateKeyCall where
  algorithm : EcKeyGenParams
  extractable : Bool
  keyUsages : List String
deriving DecidableEq

/-- part_000 lines 133-137: `crypto.subtle.generateKey({name: ECDH,
namedCurve: P-256}, true, [deriveBits])` — the literal arguments of the
call in `setupPeerConnection`. -/
def setupGenerateKeyCall : GenerateKeyCall := ⟨⟨"ECDH", "P-256"⟩, true, ["deriveBits"]⟩

/-- Visible attributes of a generated CryptoKey. -/
structure CryptoKeyAttrs where
  keyKind : String
  curve : String
  extractable : Bool
  usages : List String
deriving DecidableEq

/-- Modelled from the Web Crypto specification: for an ECDH pair,
`generateKey` gives the private key the requested extractability and the
derivation usages. -/
def generatedPrivateKeyAttrs (call : GenerateKeyCall) : CryptoKeyAttrs :=
  ⟨"private", call.algorithm.namedCurve, call.extractable, call.keyUsages⟩

/-- Modelled from the Web Crypto specification: the public key of a
generated pair is always exportable and carries no usages for ECDH. -/
def generatedPublicKeyAttrs (call : GenerateKeyCall) : CryptoKeyAttrs :=
  ⟨"public", call.algorithm.namedCurve, true, []⟩

/-! ### C5, C6 — mailbox consumption discipline -/

/-- The try-block handler never performs a mailbox deletion itself. -/
theorem handleSig_deleteIds (u : String) (st : AppState) (c : SigDoc) :
    deleteIds (handleSig u st c).2 = [] := by
  unfold handleSig
  by_cases h1 : c.type = "offer"
  · simp only [if_pos h1]
    cases c.publicKey with
    | none => rfl
    | some pub =>
      cases c.sdp with
      | none => rfl
      | some o => rfl
  · simp only [if_neg h1]
    by_cases h2 : c.type = "answer" ∧ c.targetId = some u
    · simp only [if_pos h2]
      cases c.publicKey with
      | none => rfl
      | some pub =>
        cases st.cryptoKeyPair with
        | none => rfl
        | some kp =>
          cases hpc : st.peerConnection with
          | none => cases c.sdp <;> simp [hpc, deleteIds]
          | some pc => cases c.sdp <;> simp [hpc, deleteIds]
    · simp only [if_neg h2]
      by_cases h3 : c.type = "candidate" ∧ c.targetId = some u
      · simp only [if_pos h3]
        cases st.peerConnection <;> rfl
      · simp only [if_neg h3]; rfl

/-- One listener pass deletes exactly the read (added) document. -/
theorem processChange_deleteIds (u : String) (st : AppState) (c : SigDoc) :
    deleteIds (processChange u st c).2
      = if c.changeType = "added" then [c.id] else [] := by
  unfold processChange
  by_cases h1 : c.changeType ≠ "added"
  · simp only [if_pos h1, if_neg (by exact fun h => h1 h)]
    rfl
  · have h1p : c.changeType = "added" := not_not.mp h1
    simp only [if_neg h1, if_pos h1p]
    by_cases h2 : c.senderId = u
    · simp [h2, deleteIds]
    · simp only [if_neg h2]
      unfold deleteIds at *
      rw [List.filterMap_append]
      rw [show (List.filterMap (fun e => match e with
            | .deleteDoc i => some i
            | .sendSignal _ _ => none) (handleSig u st c).2) = deleteIds (handleSig u st c).2 from rfl,
          handleSig_deleteIds]
      rfl

/-- C5: across any snapshot batch, in any state, the mailbox deletions the
listener performs are exactly one deletion per added document, in read
order — so every message read is deleted exactly once, the deletion happens
whether or not the handler threw (the equation holds for all document
contents, including the ones whose handling takes the catch path), and a
throwing message does not stop the rest of the batch from being consumed. -/
theorem c5_mailbox_deleted_exactly_once (u : String) (st : AppState) (changes : List SigDoc) :
    deleteIds (processBatch u st changes).2
      = (changes.filter (fun c => c.changeType = "added")).map (fun c => c.id) := by
  induction changes generalizing st with
  | nil => rfl
  | cons c rest ih =>
    unfold processBatch
    unfold deleteIds at *
    rw [List.filterMap_append]
    rw [show (List.filterMap (fun e => match e with
          | .deleteDoc i => some i
          | .sendSignal _ _ => none) (processChange u st c).2) = deleteIds (processChange u st c).2 from rfl,
        processChange_deleteIds]
    rw [ih (processChange u st c).1]
    by_cases h : c.changeType = "added" <;> simp [h, List.filter_cons]

/-- C6: a signaling message whose senderId equals the local identity is
deleted from the mailbox and never reaches the offer, answer or candidate
branches: the state is unchanged and the only effect is the deletion.
This holds for every message of every batch, since the loop treats every
change through `processChange`. -/
theorem c6_self_echo_suppressed (u : String) (st : AppState) (c : SigDoc)
    (hadded : c.changeType = "added") (hself : c.senderId = u) :
    processChange u st c = (st, [Effect.deleteDoc c.id]) := by
  unfold processChange
  rw [if_neg (by simp [hadded]), if_pos hself]

/-- A self-authored added document used by the C6 witness. -/
def sampleSelfDoc : SigDoc := ⟨"d1", "added", "offer", "u1", some "u1", some 5, some "sdp", none⟩

/-- A quiescent session state used by the signaling witnesses. -/
def sampleAppState : AppState := ⟨"disconnected", "", "welcome", none, false, none, none, 0⟩

/-- Witness for C6 at a concrete self-authored offer document. -/
theorem c6_self_echo_suppressed_witness :
    sampleSelfDoc.changeType = "added"
    ∧ sampleSelfDoc.senderId = "u1"
    ∧ processChange "u1" sampleAppState sampleSelfDoc
        = (sampleAppState, [Effect.deleteDoc "d1"]) :=
  ⟨rfl, rfl, c6_self_echo_suppressed "u1" sampleAppState sampleSelfDoc rfl rfl⟩

/-! ### C9 — transport close tears down key and transport together -/

/-- C9: the close handler, in one step, sets the status to disconnected and
clears the symmetric key, the peer connection and the data channel — never
one without the other, so the state a transport-reported close produces
never holds a shared key or a transport reference. -/
theorem c9_close_clears_all_state (st : AppState) :
    (onCloseStep st).connectionStatus = "disconnected"
    ∧ (onCloseStep st).symmetricKey = none
    ∧ (onCloseStep st).peerConnection = none
    ∧ (onCloseStep st).dataChannel = false :=
  ⟨rfl, rfl, rfl, rfl⟩

/-! ### C7 — the generated keypair -/

/-- C7 counterexample: the private key the `generateKey` call of
`setupPeerConnection` produces is NOT non-extractable — the call passes
`true` for the extractable argument. -/
theorem c7_private_key_extractable_counterexample :
    ¬ ((generatedPrivateKeyAttrs setupGenerateKeyCall).extractable = false) := by
  decide

/-- C7 (amended): the keypair generated per session by
`setupPeerConnection` is a P-256 ECDH keypair usable only for shared-secret
derivation (deriveBits, not signing), whose public key is exportable — but
its private key is extractable, since the call passes `true`. -/
theorem c7_keypair_attributes :
    setupGenerateKeyCall.algorithm = ⟨"ECDH", "P-256"⟩
    ∧ setupGenerateKeyCall.keyUsages = ["deriveBits"]
    ∧ "sign" ∉ (generatedPrivateKeyAttrs setupGenerateKeyCall).usages
    ∧ (generatedPrivateKeyAttrs setupGenerateKeyCall).curve = "P-256"
    ∧ (generatedPrivateKeyAttrs setupGenerateKeyCall).extractable = true
    ∧ (generatedPublicKeyAttrs setupGenerateKeyCall).extractable = true := by
  refine ⟨rfl, rfl, ?_, rfl, rfl, rfl⟩
  decide

/-! ### C10 — dispatch conditions of the listener -/

/-- C10: for a remote added message, an offer is dispatched without any
targetId check (the result is the same for every targetId value, and the
offer branch runs: a fresh keypair is installed), while an answer or a
candidate whose targetId is not the local identity is not processed at all
(only deleted) — even though the caller writes its offer with targetId set
to the intended peer. -/
theorem c10_offer_ignores_targetid (u : String) (st : AppState) (c : SigDoc)
    (hadded : c.changeType = "added") (hremote : c.senderId ≠ u) :
    (c.type = "offer" → ∀ t : Option String,
        processChange u st { c with targetId := t } = processChange u st c)
    ∧ (c.type = "offer" →
        (processChange u st c).1.cryptoKeyPair
          = some (generateKeyPair gCurve pCurve st.entropy))
    ∧ (c.type = "answer" → c.targetId ≠ some u →
        processChange u st c = (st, [Effect.deleteDoc c.id]))
    ∧ (c.type = "candidate" → c.targetId ≠ some u →
        processChange u st c = (st, [Effect.deleteDoc c.id]))
    ∧ (∀ stc : AppState, ∀ peerId : String, peerId ≠ "" →
        ∃ d : OutDoc, (connectToPeer u stc peerId).2 = [Effect.sendSignal peerId d]
          ∧ d.type = "offer" ∧ d.targetId = some peerId) := by
  refine ⟨?_, ?_, ?_, ?_, ?_⟩
  · intro h t
    unfold processChange handleSig
    simp [hadded, hremote, h]
  · intro h
    unfold processChange
    rw [if_neg (by simp [hadded]), if_neg hremote]
    unfold handleSig
    rw [if_pos h]
    cases c.publicKey with
    | none => rfl
    | some pub =>
      cases c.sdp with
      | none => rfl
      | some o => rfl
  · intro h hne
    unfold processChange
    rw [if_neg (by simp [hadded]), if_neg hremote]
    unfold handleSig
    rw [if_neg (by simp [h]), if_neg (by simp [hne]), if_neg (by simp [h])]
    rfl
  · intro h hne
    unfold processChange
    rw [if_neg (by simp [hadded]), if_neg hremote]
    unfold handleSig
    rw [if_neg (by simp [h]), if_neg (by simp [h]), if_neg (by simp [hne])]
    rfl
  · intro stc peerId hne
    unfold connectToPeer
    rw [if_neg hne]
    exact ⟨_, rfl, rfl, rfl⟩

/-- A remote-authored added offer document (with a foreign targetId) used
by the C10 witness. -/
def sampleRemoteDoc : SigDoc := ⟨"d2", "added", "offer", "u2", some "zz", some 5, some "sdp", none⟩

/-- Witness for C10 at a concrete remote offer document. -/
theorem c10_offer_ignores_targetid_witness :
    sampleRemoteDoc.changeType = "added"
    ∧ sampleRemoteDoc.senderId ≠ "u1"
    ∧ ((sampleRemoteDoc.type = "offer" → ∀ t : Option String,
          processChange "u1" sampleAppState { sampleRemoteDoc with targetId := t }
            = processChange "u1" sampleAppState sampleRemoteDoc)
       ∧ (sampleRemoteDoc.type = "offer" →
          (processChange "u1" sampleAppState sampleRemoteDoc).1.cryptoKeyPair
            = some (generateKeyPair gCurve pCurve sampleAppState.entropy))
       ∧ (sampleRemoteDoc.type = "answer" → sampleRemoteDoc.targetId ≠ some "u1" →
          processChange "u1" sampleAppState sampleRemoteDoc
            = (sampleAppState, [Effect.deleteDoc sampleRemoteDoc.id]))
       ∧ (sampleRemoteDoc.type = "candidate" → sampleRemoteDoc.targetId ≠ some "u1" →
          processChange "u1" sampleAppState sampleRemoteDoc
            = (sampleAppState, [Effect.deleteDoc sampleRemoteDoc.id]))
       ∧ (∀ stc : AppState, ∀ peerId : String, peerId ≠ "" →
          ∃ d : OutDoc, (connectToPeer "u1" stc peerId).2 = [Effect.sendSignal peerId d]
            ∧ d.type = "offer" ∧ d.targetId = some peerId)) :=
  ⟨rfl, by decide,
   c10_offer_ignores_targetid "u1" sampleAppState sampleRemoteDoc rfl (by decide)⟩

/-! ### C8 — sender-side progress reporting -/

/-- The chunking loop emits nothing once the offset has passed the end. -/
theorem sendProgressLoop_nil (n offset fuel : Nat) (h : ¬ offset < n) :
    sendProgressLoop n offset fuel = [] := by
  cases fuel with
  | zero => rfl
  | succ fuel => simp [sendProgressLoop, h]

/-- Every reported progress value is a positive chunk-count multiple of
`chunkSize` over the file size, times 100. -/
theorem sendProgressLoop_mem (n : Nat) :
    ∀ fuel m q, q ∈ sendProgressLoop n (m * chunkSize) fuel →
      ∃ k, 0 < k ∧ q = ((k * chunkSize : Nat) : ℚ) / (n : ℚ) * 100 := by
  intro fuel
  induction fuel with
  | zero =>
    intro m q hq
    simp [sendProgressLoop] at hq
  | succ fuel ih =>
    intro m q hq
    by_cases h : m * chunkSize < n
    · simp only [sendProgressLoop, if_pos h, List.mem_cons] at hq
      rcases hq with hq | hq
      · refine ⟨m + 1, Nat.succ_pos m, ?_⟩
        rw [hq, Nat.succ_mul]
      · rw [show m * chunkSize + chunkSize = (m + 1) * chunkSize from
            (Nat.succ_mul m chunkSize).symm] at hq
        exact ih (m + 1) q hq
    · rw [sendProgressLoop_nil n (m * chunkSize) (fuel + 1) h] at hq
      simp at hq

/-- With enough fuel, the loop on a nonempty remainder ends with a report
of at least 100 percent. -/
theorem sendProgressLoop_last (n : Nat) (hn : 0 < n) :
    ∀ fuel offset, offset < n → n ≤ offset + fuel * chunkSize →
      ∃ q, (sendProgressLoop n offset fuel).getLast? = some q ∧ 100 ≤ q := by
  intro fuel
  induction fuel with
  | zero =>
    intro offset hlt hle
    exact absurd hle (by omega)
  | succ fuel ih =>
    intro offset hlt hle
    have hcs : chunkSize = 16384 := rfl
    by_cases h2 : offset + chunkSize < n
    · obtain ⟨q, hq, hq100⟩ := ih (offset + chunkSize) h2 (by rw [Nat.succ_mul] at hle; omega)
      refine ⟨q, ?_, hq100⟩
      rcases htail : sendProgressLoop n (offset + chunkSize) fuel with _ | ⟨b, l⟩
      · rw [htail] at hq; simp at hq
      · rw [htail] at hq
        simp only [sendProgressLoop, if_pos hlt, htail]
        rw [List.getLast?_cons_cons]
        exact hq
    · refine ⟨((offset + chunkSize : Nat) : ℚ) / (n : ℚ) * 100, ?_, ?_⟩
      · simp only [sendProgressLoop, if_pos hlt,
                   sendProgressLoop_nil n (offset + chunkSize) fuel h2]
        rfl
      · have hn2 : (0 : ℚ) < (n : ℚ) := by exact_mod_cast hn
        have hle2 : (n : ℚ) ≤ ((offset + chunkSize : Nat) : ℚ) := by
          exact_mod_cast (by omega : n ≤ offset + chunkSize)
        have h1 : (1 : ℚ) ≤ ((offset + chunkSize : Nat) : ℚ) / (n : ℚ) :=
          (one_le_div hn2).mpr hle2
        linarith

/-- C8 counterexample: for a one-byte file the single chunk leads to a
reported progress of 1638400, not 100 = bytesSent / fileSize * 100, and it
exceeds 100. -/
theorem c8_progress_counterexample :
    sendProgress 1 = [(1638400 : ℚ)]
    ∧ (100 : ℚ) < 1638400
    ∧ (1638400 : ℚ) ≠ (1 : ℚ) / (1 : ℚ) * 100 := by
  refine ⟨?_, by norm_num, by norm_num⟩
  norm_num [sendProgress, sendProgressLoop, chunkSize]

/-- C8 (amended): the progress reported after each chunk is
`offset / fileSize * 100` where offset is the number of chunks sent so far
times `chunkSize`, not the capped count of plaintext bytes sent; for every
nonzero file size the final report is at least 100, and it can exceed 100
(it does whenever the size is not a chunk multiple). -/
theorem c8_progress_offset_based (n : Nat) (hn : 0 < n) :
    (∀ q ∈ sendProgress n, ∃ k, 0 < k ∧ q = ((k * chunkSize : Nat) : ℚ) / (n : ℚ) * 100)
    ∧ ∃ q, (sendProgress n).getLast? = some q ∧ 100 ≤ q := by
  constructor
  · intro q hq
    rw [sendProgress] at hq
    exact sendProgressLoop_mem n n 0 q (by simpa using hq)
  · rw [sendProgress]
    apply sendProgressLoop_last n hn n 0 hn
    have hcs : chunkSize = 16384 := rfl
    rw [hcs]
    omega

/-- Witness for the amended C8 at a one-byte file. -/
theorem c8_progress_offset_based_witness :
    0 < 1
    ∧ ((∀ q ∈ sendProgress 1, ∃ k, 0 < k ∧ q = ((k * chunkSize : Nat) : ℚ) / ((1 : Nat) : ℚ) * 100)
       ∧ ∃ q, (sendProgress 1).getLast? = some q ∧ 100 ≤ q) :=
  ⟨Nat.one_pos, c8_progress_offset_based 1 Nat.one_pos⟩

end SecureP2P
